import Mathlib

/-!
Verification of the hero-rank rating engine.

This file gives a shallow embedding, in Lean 4, of the rating engine of the
hero-rank repository and proves (or refutes) the properties claimed of it:

* the pure Elo calculator `expectedScore` / `calculateNewRatings`
  (src/src/utils/elo.ts, concatenated into src/src/utils/firebase.ts),
* the live update path of the vote router: `getHeroRating`,
  `updateHeroRatings` and the `cast-vote` mutation (src/unnamed/part_009,
  a version of src/server/router/index.ts backed by Turso),
* the batch recompute path of the migration endpoint: `getOrCreateRating`,
  `processVote`, `fetchAllVotes` sorting and the replay loop of `handler`
  (concatenated into src/src/pages/index.tsx),
* the Wilson score estimator `wilsonScore`, `getZScore` and
  `wilsonScoreInterval` (src/src/utils/wilsonScore.ts).

Modelling conventions: JavaScript numbers are modelled as real numbers
(`ℝ`); game/win/loss counters, which the code only ever sets to 0 or
increments by 1, are modelled as `ℕ`; hero identifiers as `ℤ`.
`Math.round` is modelled as
`jsRound` (round half toward positive infinity).  The Turso/Firestore
stores are modelled as functions from hero id to an optional persisted
row, and a fallible storage read as an `Except` value.
-/

namespace HeroRank

noncomputable section

/-- JavaScript `Math.round`: rounds to the nearest integer, halves toward
positive infinity. -/
def jsRound (x : ℝ) : ℤ := ⌊x + 1 / 2⌋

/-- Model of `EloConfig` from src/src/utils/firebase.ts (elo.ts). -/
structure EloConfig where
  kFactor : ℝ
  provisionalKFactor : ℝ
  provisionalThreshold : ℕ
  initialRating : ℝ
  provisionalFlagThreshold : ℕ

/-- Model of `DEFAULT_ELO_CONFIG` from src/src/utils/firebase.ts (elo.ts). -/
def DEFAULT_ELO_CONFIG : EloConfig :=
  { kFactor := 32
    provisionalKFactor := 48
    provisionalThreshold := 10
    initialRating := 1500
    provisionalFlagThreshold := 20 }

/-- Model of `expectedScore` from src/src/utils/firebase.ts (elo.ts), lines 266-269:
`1 / (1 + Math.pow(10, (ratingB - ratingA) / 400))`. -/
def expectedScore (ratingA ratingB : ℝ) : ℝ :=
  1 / (1 + (10 : ℝ) ^ ((ratingB - ratingA) / 400))

/-- Model of `EloResult` from src/src/utils/firebase.ts (elo.ts).  The two changes are
produced by `Math.round`, hence integers. -/
structure EloResult where
  newWinnerRating : ℝ
  newLoserRating : ℝ
  winnerChange : ℤ
  loserChange : ℤ

/-- Model of `calculateNewRatings` from src/src/utils/firebase.ts (elo.ts), lines
316-351.  The JS function merges caller overrides onto the defaults; here the
(full) config is an explicit first argument and the claims instantiate it with
`DEFAULT_ELO_CONFIG`. -/
def calculateNewRatings (config : EloConfig) (winnerRating loserRating : ℝ)
    (winnerGames loserGames : ℕ) : EloResult :=
  let winnerK : ℝ :=
    if winnerGames < config.provisionalThreshold then config.provisionalKFactor
    else config.kFactor
  let loserK : ℝ :=
    if loserGames < config.provisionalThreshold then config.provisionalKFactor
    else config.kFactor
  let winnerExpected := expectedScore winnerRating loserRating
  let loserExpected := expectedScore loserRating winnerRating
  let winnerChange := jsRound (winnerK * (1 - winnerExpected))
  let loserChange := jsRound (loserK * (0 - loserExpected))
  { newWinnerRating := winnerRating + winnerChange
    newLoserRating := loserRating + loserChange
    winnerChange := winnerChange
    loserChange := loserChange }

/-- Model of `isProvisional` from src/src/utils/firebase.ts (elo.ts), lines 374-377:
`games < provisionalFlagThreshold`. -/
def isProvisional (games : ℕ) (config : EloConfig) : Bool :=
  games < config.provisionalFlagThreshold

/-- Model of `HeroRatingState` from src/src/types/heroRating.ts (concatenated into
src/src/types/heroBiography.ts): the in-memory representation used by the
router reads and the migration replay.  The optional `heroName` field is
omitted (never touched by the rating algorithms). -/
structure HeroRatingState where
  heroId : ℤ
  rating : ℝ
  games : ℕ
  wins : ℕ
  losses : ℕ
  peakRating : ℝ
  lowestRating : ℝ
  currentStreak : ℤ

/-- Model of `createDefaultHeroRating` / `DEFAULT_HERO_RATING` from
src/src/types/heroRating.ts. -/
def createDefaultHeroRating (heroId : ℤ) : HeroRatingState :=
  { heroId := heroId
    rating := 1500
    games := 0
    wins := 0
    losses := 0
    peakRating := 1500
    lowestRating := 1500
    currentStreak := 0 }

/-- One persisted rating row, in the column shape shared by the Turso
`heroRatings` table (part_009) and the Firestore `heroRatings` documents
(migration writer): rating, games, wins, losses, is_provisional,
peak_rating, lowest_rating, win_rate, current_streak. -/
structure HeroRow where
  rating : ℝ
  games : ℕ
  wins : ℕ
  losses : ℕ
  isProvisional : Bool
  peakRating : ℝ
  lowestRating : ℝ
  winRate : ℝ
  currentStreak : ℤ

/-- The persistent rating store, keyed by hero id. -/
def Store : Type := ℤ → Option HeroRow

/-- Model of `INSERT OR REPLACE` of one row. -/
def storeInsert (store : Store) (id : ℤ) (row : HeroRow) : Store :=
  fun x => if x = id then some row else store x

/-- A store with no rows. -/
def emptyStore : Store := fun _ => none

/-- Model of `getHeroRating` from src/unnamed/part_009, lines 13-41, with the outcome
of the Turso read made explicit: `Except.error` is a thrown storage error
(the `catch` branch), `Except.ok none` is an empty result set, and
`Except.ok (some row)` is a found row.  Both the not-found case and the
error case return `createDefaultHeroRating`. -/
def getHeroRating (readResult : Except Unit (Option HeroRow)) (heroId : ℤ) :
    HeroRatingState :=
  match readResult with
  | .ok (some row) =>
      { heroId := heroId
        rating := row.rating
        games := row.games
        wins := row.wins
        losses := row.losses
        peakRating := row.peakRating
        lowestRating := row.lowestRating
        currentStreak := row.currentStreak }
  | .ok none => createDefaultHeroRating heroId
  | .error _ => createDefaultHeroRating heroId

/-- Model of `RatingUpdateResult` from src/unnamed/part_009. -/
structure RatingUpdateResult where
  winnerRatingChange : ℤ
  loserRatingChange : ℤ
  winnerNewRating : ℝ
  loserNewRating : ℝ

/-- Model of `updateHeroRatings` from src/unnamed/part_009, lines 60-144, with the two
storage reads made explicit (they both happen before either write, via
`Promise.all`).  The winner row is written with the argument list of lines
102-113 of the source: its losses column receives `loserNewLosses`.  Writes
are `INSERT OR REPLACE`, winner first, then loser. -/
def updateHeroRatingsE (readWinner readLoser : Except Unit (Option HeroRow))
    (store : Store) (winnerId loserId : ℤ) : RatingUpdateResult × Store :=
  let winnerRating := getHeroRating readWinner winnerId
  let loserRating := getHeroRating readLoser loserId
  let eloResult := calculateNewRatings DEFAULT_ELO_CONFIG
    winnerRating.rating loserRating.rating winnerRating.games loserRating.games
  let winnerNewGames := winnerRating.games + 1
  let winnerNewWins := winnerRating.wins + 1
  let winnerNewStreak : ℤ :=
    if 0 ≤ winnerRating.currentStreak then winnerRating.currentStreak + 1 else 1
  let winnerNewPeak := max winnerRating.peakRating eloResult.newWinnerRating
  let winnerNewLowest := min winnerRating.lowestRating eloResult.newWinnerRating
  let winnerWinRate : ℝ := ((winnerNewWins : ℝ) / (winnerNewGames : ℝ)) * 100
  let loserNewGames := loserRating.games + 1
  let loserNewLosses := loserRating.losses + 1
  let loserNewStreak : ℤ :=
    if loserRating.currentStreak ≤ 0 then loserRating.currentStreak - 1 else -1
  let loserNewPeak := max loserRating.peakRating eloResult.newLoserRating
  let loserNewLowest := min loserRating.lowestRating eloResult.newLoserRating
  let loserWinRate : ℝ := ((loserRating.wins : ℝ) / (loserNewGames : ℝ)) * 100
  let winnerRow : HeroRow :=
    { rating := eloResult.newWinnerRating
      games := winnerNewGames
      wins := winnerNewWins
      losses := loserNewLosses
      isProvisional := isProvisional winnerNewGames DEFAULT_ELO_CONFIG
      peakRating := winnerNewPeak
      lowestRating := winnerNewLowest
      winRate := winnerWinRate
      currentStreak := winnerNewStreak }
  let loserRow : HeroRow :=
    { rating := eloResult.newLoserRating
      games := loserNewGames
      wins := loserRating.wins
      losses := loserNewLosses
      isProvisional := isProvisional loserNewGames DEFAULT_ELO_CONFIG
      peakRating := loserNewPeak
      lowestRating := loserNewLowest
      winRate := loserWinRate
      currentStreak := loserNewStreak }
  let store1 := storeInsert store winnerId winnerRow
  let store2 := storeInsert store1 loserId loserRow
  ({ winnerRatingChange := eloResult.winnerChange
     loserRatingChange := eloResult.loserChange
     winnerNewRating := eloResult.newWinnerRating
     loserNewRating := eloResult.newLoserRating }, store2)

/-- Model of `updateHeroRatings` with both reads succeeding against the store. -/
def updateHeroRatings (store : Store) (winnerId loserId : ℤ) :
    RatingUpdateResult × Store :=
  updateHeroRatingsE (.ok (store winnerId)) (.ok (store loserId))
    store winnerId loserId

/-- Result value of the `cast-vote` mutation of src/unnamed/part_009:
either the success object with the two changes and two new ratings, or the
`{success: false, error}` object produced by the `catch` branch. -/
inductive CastVoteResult where
  | ok (winnerRatingChange loserRatingChange : ℤ)
      (winnerNewRating loserNewRating : ℝ)
  | err

/-- The `success` field of the object returned by `cast-vote`. -/
def CastVoteResult.isSuccess : CastVoteResult → Bool
  | .ok _ _ _ _ => true
  | .err => false

/-- Which storage operations fail during one `cast-vote` call.  `.ok` cases
of the reads use the current store content. -/
structure StorageEnv where
  insertVoteFails : Bool
  readWinnerFails : Bool
  readLoserFails : Bool

/-- The state behind the router: the append-only `votes` table and the
`heroRatings` table. -/
structure VoteStore where
  votes : List (ℤ × ℤ)
  ratings : Store

/-- The empty database. -/
def emptyVoteStore : VoteStore := { votes := [], ratings := emptyStore }

/-- The `cast-vote` mutation from src/unnamed/part_009, lines 154-183, with
storage failures made explicit.  The input is validated by zod only as a pair
of numbers; there is no `votedFor == votedAgainst` check.  The vote row is
inserted first, then `updateHeroRatings` runs; any thrown storage error is
caught and returned as a failure object. -/
def castVoteE (env : StorageEnv) (db : VoteStore) (votedFor votedAgainst : ℤ) :
    CastVoteResult × VoteStore :=
  if env.insertVoteFails then (CastVoteResult.err, db)
  else
    let db1 : VoteStore := { db with votes := db.votes ++ [(votedFor, votedAgainst)] }
    let readW : Except Unit (Option HeroRow) :=
      if env.readWinnerFails then .error () else .ok (db1.ratings votedFor)
    let readL : Except Unit (Option HeroRow) :=
      if env.readLoserFails then .error () else .ok (db1.ratings votedAgainst)
    let result := updateHeroRatingsE readW readL db1.ratings votedFor votedAgainst
    (CastVoteResult.ok result.1.winnerRatingChange result.1.loserRatingChange
      result.1.winnerNewRating result.1.loserNewRating,
     { db1 with ratings := result.2 })

/-- Model of `cast-vote` with all storage operations succeeding. -/
def castVote (db : VoteStore) (votedFor votedAgainst : ℤ) :
    CastVoteResult × VoteStore :=
  castVoteE ⟨false, false, false⟩ db votedFor votedAgainst

/-- The live incremental path folded over a list of comparison events
(winnerId, loserId), each applied by `updateHeroRatings` against the store. -/
def liveReplay (store : Store) (events : List (ℤ × ℤ)) : Store :=
  events.foldl (fun s e => (updateHeroRatings s e.1 e.2).2) store

/-- In-memory ratings map of the migration endpoint (`RatingsMap` in the
source, a JS `Map` keyed by hero id). -/
def RatingsMap : Type := ℤ → Option HeroRatingState

/-- The empty ratings map. -/
def emptyRatingsMap : RatingsMap := fun _ => none

/-- Insert into the ratings map. -/
def mapInsert (ratings : RatingsMap) (id : ℤ) (r : HeroRatingState) : RatingsMap :=
  fun x => if x = id then some r else ratings x

/-- Model of `getOrCreateRating` from the migration endpoint (concatenated into
src/src/pages/index.tsx, lines 170-177). -/
def getOrCreateRating (ratings : RatingsMap) (heroId : ℤ) : HeroRatingState :=
  (ratings heroId).getD (createDefaultHeroRating heroId)

/-- Model of `processVote` from the migration endpoint (src/src/pages/index.tsx,
lines 186-213), as a pure map transformer: both updated records are put back
into the map.  The handler only calls it with `winnerId ≠ loserId`. -/
def processVote (ratings : RatingsMap) (winnerId loserId : ℤ) : RatingsMap :=
  let winner := getOrCreateRating ratings winnerId
  let loser := getOrCreateRating ratings loserId
  let result := calculateNewRatings DEFAULT_ELO_CONFIG
    winner.rating loser.rating winner.games loser.games
  let winner' : HeroRatingState :=
    { winner with
      rating := result.newWinnerRating
      games := winner.games + 1
      wins := winner.wins + 1
      peakRating := max winner.peakRating result.newWinnerRating
      lowestRating := min winner.lowestRating result.newWinnerRating
      currentStreak :=
        if 0 ≤ winner.currentStreak then winner.currentStreak + 1 else 1 }
  let loser' : HeroRatingState :=
    { loser with
      rating := result.newLoserRating
      games := loser.games + 1
      losses := loser.losses + 1
      peakRating := max loser.peakRating result.newLoserRating
      lowestRating := min loser.lowestRating result.newLoserRating
      currentStreak :=
        if loser.currentStreak ≤ 0 then loser.currentStreak - 1 else -1 }
  mapInsert (mapInsert ratings winnerId winner') loserId loser'

/-- The per-record document written by `writeRatingsToFirestore`
(src/src/pages/index.tsx, lines 282-299): derived `isProvisional` and
`winRate` (rounded to 2 decimal places) are computed at write time. -/
def rowOfState (r : HeroRatingState) : HeroRow :=
  let winRate : ℝ := if 0 < r.games then ((r.wins : ℝ) / (r.games : ℝ)) * 100 else 0
  { rating := r.rating
    games := r.games
    wins := r.wins
    losses := r.losses
    isProvisional := isProvisional r.games DEFAULT_ELO_CONFIG
    peakRating := r.peakRating
    lowestRating := r.lowestRating
    winRate := (jsRound (winRate * 100) : ℝ) / 100
    currentStreak := r.currentStreak }

/-- The batch recompute path of the claims: `processVote` folded over a list
of valid comparison events, starting from the empty map. -/
def batchReplay (events : List (ℤ × ℤ)) : RatingsMap :=
  events.foldl (fun m e => processVote m e.1 e.2) emptyRatingsMap

/-- The rows the batch path persists for a replayed event list. -/
def batchRows (events : List (ℤ × ℤ)) : Store :=
  fun id => (batchReplay events id).map rowOfState

/-- One vote document as read back from storage by `fetchAllVotes`
(src/src/pages/index.tsx, lines 220-245): `votedFor` / `votedAgainst` are
`none` when not numbers (the handler checks `typeof ... !== 'number'`), and
`createTime` is `none` when the `createdAt` field is missing. -/
structure VoteDoc where
  votedFor : Option ℤ
  votedAgainst : Option ℤ
  createTime : Option ℤ
deriving DecidableEq

/-- The sort key of `fetchAllVotes`: `createTime?.getTime() ?? 0`. -/
def sortKey (v : VoteDoc) : ℤ := v.createTime.getD 0

/-- Comparator order of `votes.sort((a, b) => timeA - timeB)`. -/
def voteLE (a b : VoteDoc) : Prop := sortKey a ≤ sortKey b

instance : DecidableRel voteLE :=
  fun a b => inferInstanceAs (Decidable (sortKey a ≤ sortKey b))

instance : IsTotal VoteDoc voteLE :=
  ⟨fun a b => le_total (sortKey a) (sortKey b)⟩

instance : IsTrans VoteDoc voteLE :=
  ⟨fun _ _ _ hab hbc => le_trans hab hbc⟩

/-- Strict version of `voteLE`, used to reason about timestamp-distinct
event lists. -/
def voteLT (a b : VoteDoc) : Prop := sortKey a < sortKey b

instance : IsAntisymm VoteDoc voteLT :=
  ⟨fun _ _ h1 h2 => absurd h2 (not_lt.mpr (le_of_lt h1))⟩

/-- The sorting step of `fetchAllVotes` (src/src/pages/index.tsx, lines
236-242): JS `Array.sort` is a stable sort by the comparator, modelled by
insertion sort with `voteLE`. -/
def fetchAllVotesSorted (l : List VoteDoc) : List VoteDoc :=
  List.insertionSort voteLE l

/-- The validity test of the handler loop (src/src/pages/index.tsx, lines
375-379): both ids are numbers and they differ. -/
def isValidVote (v : VoteDoc) : Bool :=
  match v.votedFor, v.votedAgainst with
  | some votedFor, some votedAgainst => decide (votedFor ≠ votedAgainst)
  | _, _ => false

/-- One iteration of the handler replay loop (src/src/pages/index.tsx, lines
373-385): invalid votes are skipped, valid ones go through `processVote`. -/
def replayStep (ratings : RatingsMap) (vote : VoteDoc) : RatingsMap :=
  match vote.votedFor, vote.votedAgainst with
  | some votedFor, some votedAgainst =>
      if votedFor = votedAgainst then ratings
      else processVote ratings votedFor votedAgainst
  | _, _ => ratings

/-- The ratings map computed by the migration `handler`: fetch and sort all
votes, then replay them in order, skipping invalid ones. -/
def handlerRatings (l : List VoteDoc) : RatingsMap :=
  (fetchAllVotesSorted l).foldl replayStep emptyRatingsMap

/-- Model of `getZScore` from src/src/utils/wilsonScore.ts, lines 69-78: an exact
three-entry table with fallback `1.96` (the `|| 1.96` default) for every
other confidence level. -/
def getZScore (confidenceLevel : ℝ) : ℝ :=
  if confidenceLevel = 0.90 then 1.645
  else if confidenceLevel = 0.95 then 1.96
  else if confidenceLevel = 0.99 then 2.576
  else 1.96

/-- The lower Wilson bound as a function of the z-score, the win proportion
`p` and the game count `N`; the common core of `wilsonScore` and of the
lower component of `wilsonScoreInterval`. -/
def wilsonLower (z p N : ℝ) : ℝ :=
  let z2 := z * z
  let denominator := 1 + z2 / N
  let centerAdjustment := p + z2 / (2 * N)
  let marginOfError := z * Real.sqrt ((p * (1 - p) + z2 / (4 * N)) / N)
  (centerAdjustment - marginOfError) / denominator

/-- Model of `wilsonScore` from src/src/utils/wilsonScore.ts, lines 38-61. -/
def wilsonScore (wins games : ℕ) (confidenceLevel : ℝ) : ℝ :=
  if games = 0 then 0
  else
    let p : ℝ := (wins : ℝ) / (games : ℝ)
    let z : ℝ := getZScore confidenceLevel
    let z2 := z * z
    let denominator := 1 + z2 / (games : ℝ)
    let centerAdjustment := p + z2 / (2 * (games : ℝ))
    let marginOfError :=
      z * Real.sqrt ((p * (1 - p) + z2 / (4 * (games : ℝ))) / (games : ℝ))
    (centerAdjustment - marginOfError) / denominator

/-- Model of `wilsonScoreInterval` from src/src/utils/wilsonScore.ts, lines 202-221,
returning `(lower, upper)`. -/
def wilsonScoreInterval (wins games : ℕ) (confidenceLevel : ℝ) : ℝ × ℝ :=
  if games = 0 then (0, 0)
  else
    let p : ℝ := (wins : ℝ) / (games : ℝ)
    let z : ℝ := getZScore confidenceLevel
    let z2 := z * z
    let denominator := 1 + z2 / (games : ℝ)
    let centerAdjustment := p + z2 / (2 * (games : ℝ))
    let marginOfError :=
      z * Real.sqrt ((p * (1 - p) + z2 / (4 * (games : ℝ))) / (games : ℝ))
    ((centerAdjustment - marginOfError) / denominator,
     (centerAdjustment + marginOfError) / denominator)

/-! ## Helper lemmas -/

theorem rpow_base10_pos (x : ℝ) : 0 < (10 : ℝ) ^ x :=
  Real.rpow_pos_of_pos (by norm_num) x

theorem expectedScore_pos (a b : ℝ) : 0 < expectedScore a b := by
  have h := rpow_base10_pos ((b - a) / 400)
  unfold expectedScore
  exact div_pos one_pos (by linarith)

theorem expectedScore_lt_one (a b : ℝ) : expectedScore a b < 1 := by
  have h := rpow_base10_pos ((b - a) / 400)
  unfold expectedScore
  rw [div_lt_one (by linarith)]
  linarith

theorem expectedScore_add_symm (a b : ℝ) :
    expectedScore a b + expectedScore b a = 1 := by
  unfold expectedScore
  have hneg : (a - b) / 400 = -((b - a) / 400) := by ring
  rw [hneg, Real.rpow_neg (by norm_num : (0:ℝ) ≤ 10)]
  have h := rpow_base10_pos ((b - a) / 400)
  set t := (10 : ℝ) ^ ((b - a) / 400) with ht
  have ht0 : t ≠ 0 := ne_of_gt h
  have ht1 : 1 + t ≠ 0 := by positivity
  field_simp
  ring

theorem expectedScore_self (r : ℝ) : expectedScore r r = 1 / 2 := by
  unfold expectedScore
  rw [sub_self, zero_div, Real.rpow_zero]
  norm_num

theorem calculateNewRatings_winnerChange (config : EloConfig) (wr lr : ℝ)
    (wg lg : ℕ) :
    (calculateNewRatings config wr lr wg lg).winnerChange =
      jsRound ((if wg < config.provisionalThreshold then config.provisionalKFactor
        else config.kFactor) * (1 - expectedScore wr lr)) := rfl

theorem calculateNewRatings_loserChange (config : EloConfig) (wr lr : ℝ)
    (wg lg : ℕ) :
    (calculateNewRatings config wr lr wg lg).loserChange =
      jsRound ((if lg < config.provisionalThreshold then config.provisionalKFactor
        else config.kFactor) * (0 - expectedScore lr wr)) := rfl

theorem calculateNewRatings_newWinnerRating (config : EloConfig) (wr lr : ℝ)
    (wg lg : ℕ) :
    (calculateNewRatings config wr lr wg lg).newWinnerRating =
      wr + ((calculateNewRatings config wr lr wg lg).winnerChange : ℝ) := rfl

theorem calculateNewRatings_newLoserRating (config : EloConfig) (wr lr : ℝ)
    (wg lg : ℕ) :
    (calculateNewRatings config wr lr wg lg).newLoserRating =
      lr + ((calculateNewRatings config wr lr wg lg).loserChange : ℝ) := rfl

theorem jsRound_nonneg {x : ℝ} (hx : 0 ≤ x) : 0 ≤ jsRound x :=
  Int.floor_nonneg.mpr (by linarith)

theorem jsRound_nonpos {x : ℝ} (hx : x ≤ 0) : jsRound x ≤ 0 := by
  have h : jsRound x < 1 := Int.floor_lt.mpr (by push_cast; linarith)
  omega

/-! ## Claim theorems -/

/-- C1 (failing input): after the single valid comparison (winner 1, loser 2)
applied to an empty store, the live incremental path persists losses = 1 for
the winner — the winner row of `updateHeroRatings` is written with
`loserNewLosses` in its losses column (src/unnamed/part_009, line 107) —
while the batch recompute path (`processVote` folded over the same event
list) computes losses = 0 for the winner, so the two final records for
competitor 1 differ. -/
theorem live_batch_diverge_on_single_vote :
    ((liveReplay emptyStore [(1, 2)]) 1).map HeroRow.losses = some 1 ∧
    ((batchRows [(1, 2)]) 1).map HeroRow.losses = some 0 ∧
    (liveReplay emptyStore [(1, 2)]) 1 ≠ (batchRows [(1, 2)]) 1 := by
  refine ⟨rfl, rfl, ?_⟩
  intro h
  have h2 : (some 1 : Option ℕ) = some 0 := by
    calc (some 1 : Option ℕ)
        = ((liveReplay emptyStore [(1, 2)]) 1).map HeroRow.losses := rfl
      _ = ((batchRows [(1, 2)]) 1).map HeroRow.losses := by rw [h]
      _ = some 0 := rfl
  simp at h2

/-- C2 (failing input): after one valid comparison (winner 1, loser 2)
applied from the empty store via the live update path, the winner's persisted
record has games = 1, wins = 1, losses = 1, so `games == wins + losses` is
violated (the code's own invariant check evaluates to false). -/
theorem live_invariant_games_wins_losses_violated :
    ((liveReplay emptyStore [(1, 2)]) 1).map
      (fun r => (r.games, r.wins, r.losses)) = some (1, 1, 1) ∧
    ((liveReplay emptyStore [(1, 2)]) 1).map
      (fun r => decide (r.games = r.wins + r.losses)) = some false :=
  ⟨rfl, rfl⟩

/-- C3 (failing input): the cast-vote mutation with `votedFor = votedAgainst
= 5` does not fail: it returns success, records the vote `(5, 5)`, and
creates/overwrites the rating row of hero 5 (final row: games = 1, wins = 0,
losses = 1, i.e. the loser-side write, which lands last). -/
theorem self_vote_accepted_and_mutates :
    (castVote emptyVoteStore 5 5).1.isSuccess = true ∧
    ((castVote emptyVoteStore 5 5).2).votes = [(5, 5)] ∧
    (((castVote emptyVoteStore 5 5).2).ratings 5).isSome = true ∧
    emptyVoteStore.ratings 5 = none ∧
    (((castVote emptyVoteStore 5 5).2).ratings 5).map
      (fun r => (r.games, r.wins, r.losses)) = some (1, 0, 1) :=
  ⟨rfl, rfl, rfl, rfl, rfl⟩

/-- C4 (counterexample): a failing storage read during the comparison is not
surfaced as an error: `getHeroRating` swallows it and fabricates the default
1500-rating, zero-games record, and the cast-vote operation still succeeds
and applies the comparison against the fabricated record. -/
theorem read_failure_fabricates_default :
    getHeroRating (.error ()) 7 = createDefaultHeroRating 7 ∧
    (castVoteE ⟨false, true, false⟩ emptyVoteStore 1 2).1.isSuccess = true ∧
    (((castVoteE ⟨false, true, false⟩ emptyVoteStore 1 2).2).ratings 1).map
      (fun r => (r.games, r.wins)) = some (1, 1) :=
  ⟨rfl, rfl, rfl⟩

/-- C4 (amended): a storage read failure during the comparison is caught
internally and replaced by the default 1500-rating, zero-games record, and
the comparison proceeds on that fabricated data (the operation still
succeeds); only a failure of a write such as the initial vote insert is
surfaced to the caller as a failed result, without retry and without any
state change. -/
theorem read_swallowed_write_surfaced (heroId : ℤ) (db : VoteStore) (f a : ℤ) :
    getHeroRating (.error ()) heroId = createDefaultHeroRating heroId ∧
    castVoteE ⟨true, false, false⟩ db f a = (CastVoteResult.err, db) ∧
    (castVoteE ⟨false, true, true⟩ db f a).1.isSuccess = true :=
  ⟨rfl, rfl, rfl⟩

/-- C6: under the default configuration, for all winner and loser ratings and
all game counts, `calculateNewRatings` yields `winnerChange ≥ 0` and
`loserChange ≤ 0`: a win never decreases a rating and a loss never increases
it. -/
theorem winnerChange_nonneg_loserChange_nonpos (wr lr : ℝ) (wg lg : ℕ) :
    0 ≤ (calculateNewRatings DEFAULT_ELO_CONFIG wr lr wg lg).winnerChange ∧
    (calculateNewRatings DEFAULT_ELO_CONFIG wr lr wg lg).loserChange ≤ 0 := by
  have hK : ∀ g : ℕ, (0:ℝ) <
      (if g < DEFAULT_ELO_CONFIG.provisionalThreshold then
        DEFAULT_ELO_CONFIG.provisionalKFactor else DEFAULT_ELO_CONFIG.kFactor) := by
    intro g
    split <;> norm_num [DEFAULT_ELO_CONFIG]
  constructor
  · rw [calculateNewRatings_winnerChange]
    apply jsRound_nonneg
    have h1 := expectedScore_lt_one wr lr
    have h2 := hK wg
    nlinarith
  · rw [calculateNewRatings_loserChange]
    apply jsRound_nonpos
    have h1 := expectedScore_pos lr wr
    have h2 := hK lg
    nlinarith

/-- C7: for all ratings `Ra`, `Rb`, the two expected scores sum to 1 (hence
certainly to within 1e-9), and the expected score of equal ratings is 0.5. -/
theorem expectedScore_complement_and_self (a b r : ℝ) :
    expectedScore a b + expectedScore b a = 1 ∧
    |expectedScore a b + expectedScore b a - 1| ≤ 1e-9 ∧
    expectedScore r r = 0.5 := by
  refine ⟨expectedScore_add_symm a b, ?_, ?_⟩
  · rw [expectedScore_add_symm a b]
    norm_num
  · rw [expectedScore_self]
    norm_num

/-- C5: under the default configuration, `calculateNewRatings 1500 1500 0 0`
selects the provisional K-factor 48 on both sides (0 games < threshold 10),
the expected score is 0.5, and the changes are +24 and -24 (not the ±16 of
the established K = 32), giving new ratings 1524 and 1476. -/
theorem calculateNewRatings_zero_games_is_24 :
    expectedScore 1500 1500 = 0.5 ∧
    (calculateNewRatings DEFAULT_ELO_CONFIG 1500 1500 0 0).winnerChange = 24 ∧
    (calculateNewRatings DEFAULT_ELO_CONFIG 1500 1500 0 0).loserChange = -24 ∧
    (calculateNewRatings DEFAULT_ELO_CONFIG 1500 1500 0 0).newWinnerRating = 1524 ∧
    (calculateNewRatings DEFAULT_ELO_CONFIG 1500 1500 0 0).newLoserRating = 1476 := by
  have hE : expectedScore 1500 1500 = 1 / 2 := expectedScore_self 1500
  have hw : (calculateNewRatings DEFAULT_ELO_CONFIG 1500 1500 0 0).winnerChange = 24 := by
    rw [calculateNewRatings_winnerChange, hE]
    norm_num [DEFAULT_ELO_CONFIG, jsRound]
  have hl : (calculateNewRatings DEFAULT_ELO_CONFIG 1500 1500 0 0).loserChange = -24 := by
    rw [calculateNewRatings_loserChange, hE]
    norm_num [DEFAULT_ELO_CONFIG, jsRound]
  refine ⟨by rw [hE]; norm_num, hw, hl, ?_, ?_⟩
  · rw [calculateNewRatings_newWinnerRating, hw]
    norm_num
  · rw [calculateNewRatings_newLoserRating, hl]
    norm_num

theorem getZScore_default : getZScore 0.95 = 1.96 := by
  unfold getZScore
  rw [if_neg (by norm_num), if_pos rfl]

theorem getZScore_fallback (c : ℝ) (h1 : c ≠ 0.90) (h2 : c ≠ 0.95)
    (h3 : c ≠ 0.99) : getZScore c = 1.96 := by
  unfold getZScore
  rw [if_neg h1, if_neg h2, if_neg h3]

theorem two_ne_090 : (2 : ℝ) ≠ 0.90 := by norm_num

theorem two_ne_095 : (2 : ℝ) ≠ 0.95 := by norm_num

theorem two_ne_099 : (2 : ℝ) ≠ 0.99 := by norm_num

theorem wilsonLower_def (z p N : ℝ) : wilsonLower z p N =
    (p + z * z / (2 * N) - z * Real.sqrt ((p * (1 - p) + z * z / (4 * N)) / N)) /
      (1 + z * z / N) := rfl

theorem wilsonScore_eq_wilsonLower (w g : ℕ) (c : ℝ) (hg : g ≠ 0) :
    wilsonScore w g c = wilsonLower (getZScore c) ((w : ℝ) / (g : ℝ)) (g : ℝ) := by
  unfold wilsonScore wilsonLower
  rw [if_neg hg]

theorem wilsonLower_nonneg (z p N : ℝ) (hz : 0 < z) (hN : 0 < N)
    (hp0 : 0 ≤ p) (hp1 : p ≤ 1) : 0 ≤ wilsonLower z p N := by
  rw [wilsonLower_def]
  have hNne : N ≠ 0 := ne_of_gt hN
  have hs : 0 ≤ (p * (1 - p) + z * z / (4 * N)) / N := by
    apply div_nonneg _ hN.le
    have h1 : 0 ≤ p * (1 - p) := mul_nonneg hp0 (by linarith)
    have h2 : 0 ≤ z * z / (4 * N) := by positivity
    linarith
  have hsq : Real.sqrt ((p * (1 - p) + z * z / (4 * N)) / N) ^ 2 =
      (p * (1 - p) + z * z / (4 * N)) / N := Real.sq_sqrt hs
  have hM0 : 0 ≤ z * Real.sqrt ((p * (1 - p) + z * z / (4 * N)) / N) :=
    mul_nonneg hz.le (Real.sqrt_nonneg _)
  have hC0 : 0 ≤ p + z * z / (2 * N) := by positivity
  have hid : (p + z * z / (2 * N)) ^ 2 -
      z ^ 2 * ((p * (1 - p) + z * z / (4 * N)) / N) = p ^ 2 * (1 + z * z / N) := by
    field_simp
    ring
  have hkey : (z * Real.sqrt ((p * (1 - p) + z * z / (4 * N)) / N)) ^ 2 ≤
      (p + z * z / (2 * N)) ^ 2 := by
    rw [mul_pow, hsq]
    have hpos : 0 ≤ p ^ 2 * (1 + z * z / N) := by positivity
    nlinarith [hid]
  have hle : z * Real.sqrt ((p * (1 - p) + z * z / (4 * N)) / N) ≤
      p + z * z / (2 * N) := by
    have e1 := Real.sqrt_sq hM0
    have e2 := Real.sqrt_sq hC0
    calc z * Real.sqrt ((p * (1 - p) + z * z / (4 * N)) / N)
        = Real.sqrt ((z * Real.sqrt ((p * (1 - p) + z * z / (4 * N)) / N)) ^ 2) := e1.symm
      _ ≤ Real.sqrt ((p + z * z / (2 * N)) ^ 2) := Real.sqrt_le_sqrt hkey
      _ = p + z * z / (2 * N) := e2
  have hD : 0 < 1 + z * z / N := by positivity
  apply div_nonneg _ hD.le
  linarith

theorem wilsonLower_le_one (z p N : ℝ) (hz : 0 < z) (hN : 0 < N)
    (hp1 : p ≤ 1) : wilsonLower z p N ≤ 1 := by
  rw [wilsonLower_def]
  have hD : 0 < 1 + z * z / N := by positivity
  rw [div_le_one hD]
  have hM0 : 0 ≤ z * Real.sqrt ((p * (1 - p) + z * z / (4 * N)) / N) :=
    mul_nonneg hz.le (Real.sqrt_nonneg _)
  have h2 : z * z / (2 * N) ≤ z * z / N := by
    gcongr
    linarith
  linarith

theorem wilsonLower_mono (z N p1 p2 : ℝ) (hz : 0 < z) (hN : 0 < N)
    (hp0 : 0 ≤ p1) (h12 : p1 ≤ p2) (hp2 : p2 ≤ 1) :
    wilsonLower z p1 N ≤ wilsonLower z p2 N := by
  rw [wilsonLower_def, wilsonLower_def]
  have hNne : N ≠ 0 := ne_of_gt hN
  have hs1 : 0 ≤ (p1 * (1 - p1) + z * z / (4 * N)) / N := by
    apply div_nonneg _ hN.le
    have h1 : 0 ≤ p1 * (1 - p1) := mul_nonneg hp0 (by linarith)
    have h2 : 0 ≤ z * z / (4 * N) := by positivity
    linarith
  have hs2 : 0 ≤ (p2 * (1 - p2) + z * z / (4 * N)) / N := by
    apply div_nonneg _ hN.le
    have h1 : 0 ≤ p2 * (1 - p2) := mul_nonneg (by linarith) (by linarith)
    have h2 : 0 ≤ z * z / (4 * N) := by positivity
    linarith
  set a := Real.sqrt ((p1 * (1 - p1) + z * z / (4 * N)) / N) with hadef
  set b := Real.sqrt ((p2 * (1 - p2) + z * z / (4 * N)) / N) with hbdef
  have ha2 : a ^ 2 = (p1 * (1 - p1) + z * z / (4 * N)) / N := Real.sq_sqrt hs1
  have hb2 : b ^ 2 = (p2 * (1 - p2) + z * z / (4 * N)) / N := Real.sq_sqrt hs2
  have hla : z / (2 * N) ≤ a := by
    have h0 : 0 ≤ z / (2 * N) := by positivity
    have e1 : (z / (2 * N)) ^ 2 = (z * z / (4 * N)) / N := by
      field_simp
      ring
    have h1 : (z / (2 * N)) ^ 2 ≤ (p1 * (1 - p1) + z * z / (4 * N)) / N := by
      rw [e1]
      gcongr
      have := mul_nonneg hp0 (by linarith : 0 ≤ 1 - p1)
      linarith
    calc z / (2 * N) = Real.sqrt ((z / (2 * N)) ^ 2) := (Real.sqrt_sq h0).symm
      _ ≤ a := Real.sqrt_le_sqrt h1
  have hlb : z / (2 * N) ≤ b := by
    have h0 : 0 ≤ z / (2 * N) := by positivity
    have e1 : (z / (2 * N)) ^ 2 = (z * z / (4 * N)) / N := by
      field_simp
      ring
    have h1 : (z / (2 * N)) ^ 2 ≤ (p2 * (1 - p2) + z * z / (4 * N)) / N := by
      rw [e1]
      gcongr
      have := mul_nonneg (le_trans hp0 h12) (by linarith : 0 ≤ 1 - p2)
      linarith
    calc z / (2 * N) = Real.sqrt ((z / (2 * N)) ^ 2) := (Real.sqrt_sq h0).symm
      _ ≤ b := Real.sqrt_le_sqrt h1
  have habpos : 0 < a + b := by
    have hz2N : 0 < z / (2 * N) := by positivity
    linarith
  have hprod : (b - a) * (b + a) =
      (p2 * (1 - p2) + z * z / (4 * N)) / N - (p1 * (1 - p1) + z * z / (4 * N)) / N := by
    have e : (b - a) * (b + a) = b ^ 2 - a ^ 2 := by ring
    rw [e, ha2, hb2]
  have hdiffs : (p2 * (1 - p2) + z * z / (4 * N)) / N -
      (p1 * (1 - p1) + z * z / (4 * N)) / N = (p2 - p1) * (1 - p1 - p2) / N := by
    field_simp
    ring
  have hmul : 0 < (a + b) * N := mul_pos habpos hN
  have key : z * (b - a) ≤ p2 - p1 := by
    have hub : z ≤ (a + b) * N := by
      have hsum : z / (2 * N) + z / (2 * N) ≤ a + b := by linarith
      have e4 : (z / (2 * N) + z / (2 * N)) * N = z := by
        field_simp
        ring
      calc z = (z / (2 * N) + z / (2 * N)) * N := e4.symm
        _ ≤ (a + b) * N := mul_le_mul_of_nonneg_right hsum hN.le
    have step : z * (b - a) * ((a + b) * N) ≤ (p2 - p1) * ((a + b) * N) := by
      have e2 : z * (b - a) * ((a + b) * N) = z * ((b - a) * (b + a)) * N := by ring
      rw [e2, hprod, hdiffs]
      have e3 : z * ((p2 - p1) * (1 - p1 - p2) / N) * N =
          z * (p2 - p1) * (1 - p1 - p2) := by
        field_simp
        ring
      rw [e3]
      have hzp : 0 ≤ z * (p2 - p1) := mul_nonneg hz.le (by linarith)
      have hb1 : 1 - p1 - p2 ≤ 1 := by linarith
      calc z * (p2 - p1) * (1 - p1 - p2) ≤ z * (p2 - p1) * 1 :=
            mul_le_mul_of_nonneg_left hb1 hzp
        _ = (p2 - p1) * z := by ring
        _ ≤ (p2 - p1) * ((a + b) * N) :=
            mul_le_mul_of_nonneg_left hub (by linarith)
    exact le_of_mul_le_mul_right step hmul
  have hD : 0 < 1 + z * z / N := by positivity
  gcongr (?_ : ℝ) / (1 + z * z / N)
  linarith

/-- C9: for a fixed game count g ≥ 1 and win counts w ≤ w2 ≤ g, the Wilson
score at the default 0.95 confidence lies in [0, 1] and is monotonically
non-decreasing in the number of wins. -/
theorem wilsonScore_bounds_and_monotone (w w2 g : ℕ) (hg : 1 ≤ g)
    (h12 : w ≤ w2) (h2g : w2 ≤ g) :
    (0 ≤ wilsonScore w g 0.95 ∧ wilsonScore w g 0.95 ≤ 1) ∧
    wilsonScore w g 0.95 ≤ wilsonScore w2 g 0.95 := by
  have hg0 : g ≠ 0 := by omega
  have hgR : (0 : ℝ) < (g : ℝ) := by
    have : 0 < g := by omega
    exact_mod_cast this
  have hzpos : (0 : ℝ) < getZScore 0.95 := by
    rw [getZScore_default]
    norm_num
  have hp0 : (0 : ℝ) ≤ (w : ℝ) / (g : ℝ) := by positivity
  have hp2 : (w2 : ℝ) / (g : ℝ) ≤ 1 := by
    rw [div_le_one hgR]
    exact_mod_cast h2g
  have h12R : (w : ℝ) / (g : ℝ) ≤ (w2 : ℝ) / (g : ℝ) := by
    gcongr
  have hp1 : (w : ℝ) / (g : ℝ) ≤ 1 := le_trans h12R hp2
  rw [wilsonScore_eq_wilsonLower w g _ hg0, wilsonScore_eq_wilsonLower w2 g _ hg0]
  exact ⟨⟨wilsonLower_nonneg _ _ _ hzpos hgR hp0 hp1,
      wilsonLower_le_one _ _ _ hzpos hgR hp1⟩,
    wilsonLower_mono _ _ _ _ hzpos hgR hp0 h12R hp2⟩

/-- Witness for C9 at w = 3, w2 = 5, g = 10. -/
theorem wilsonScore_bounds_and_monotone_witness :
    (0 ≤ wilsonScore 3 10 0.95 ∧ wilsonScore 3 10 0.95 ≤ 1) ∧
    wilsonScore 3 10 0.95 ≤ wilsonScore 5 10 0.95 :=
  wilsonScore_bounds_and_monotone 3 5 10 (by decide) (by decide) (by decide)

/-- C10: for any confidence level other than exactly 0.90, 0.95 or 0.99,
`getZScore` silently falls back to z = 1.96, so `wilsonScore` and
`wilsonScoreInterval` coincide with their values at confidence 0.95. -/
theorem wilson_confidence_fallback (w g : ℕ) (c : ℝ)
    (h1 : c ≠ 0.90) (h2 : c ≠ 0.95) (h3 : c ≠ 0.99) :
    wilsonScore w g c = wilsonScore w g 0.95 ∧
    wilsonScoreInterval w g c = wilsonScoreInterval w g 0.95 := by
  have hz : getZScore c = getZScore 0.95 := by
    rw [getZScore_fallback c h1 h2 h3, getZScore_default]
  constructor
  · unfold wilsonScore
    rw [hz]
  · unfold wilsonScoreInterval
    rw [hz]

/-- Witness for C10 at confidence level 2 (not one of the table keys). -/
theorem wilson_confidence_fallback_witness :
    wilsonScore 3 7 2 = wilsonScore 3 7 0.95 ∧
    wilsonScoreInterval 3 7 2 = wilsonScoreInterval 3 7 0.95 :=
  wilson_confidence_fallback 3 7 2 two_ne_090 two_ne_095 two_ne_099

theorem replayStep_invalid (m : RatingsMap) (v : VoteDoc)
    (hv : isValidVote v = false) : replayStep m v = m := by
  rcases v with ⟨vf, va, ct⟩
  cases vf <;> cases va <;> simp_all [replayStep, isValidVote]

theorem sorted_nodupkeys_eq {l1 l2 : List VoteDoc} (hp : l1.Perm l2)
    (hs1 : List.Sorted voteLE l1) (hs2 : List.Sorted voteLE l2)
    (hnd : (l1.map sortKey).Nodup) : l1 = l2 := by
  have hnd2 : (l2.map sortKey).Nodup := ((hp.map sortKey).nodup_iff).mp hnd
  have hne1 : List.Pairwise (fun a b => sortKey a ≠ sortKey b) l1 :=
    List.pairwise_map.mp hnd
  have hne2 : List.Pairwise (fun a b => sortKey a ≠ sortKey b) l2 :=
    List.pairwise_map.mp hnd2
  have hlt1 : List.Sorted voteLT l1 :=
    (hs1.and hne1).imp (fun h => lt_of_le_of_ne h.1 h.2)
  have hlt2 : List.Sorted voteLT l2 :=
    (hs2.and hne2).imp (fun h => lt_of_le_of_ne h.1 h.2)
  exact List.eq_of_perm_of_sorted hp hlt1 hlt2

/-- C8: the handler's batch recompute sorts the fetched events ascending by
timestamp key, replays exactly the sorted list (skipping invalid events —
self-comparisons or non-numeric ids — without failing), and when timestamps
are pairwise distinct the final ratings map does not depend on the order in
which the events arrived from storage. -/
theorem batch_replay_sorted_deterministic (l l2 : List VoteDoc)
    (m : RatingsMap) (v : VoteDoc)
    (hperm : l.Perm l2) (hnd : (l.map sortKey).Nodup)
    (hv : isValidVote v = false) :
    List.Sorted voteLE (fetchAllVotesSorted l) ∧
    (fetchAllVotesSorted l).Perm l ∧
    handlerRatings l = (fetchAllVotesSorted l).foldl replayStep emptyRatingsMap ∧
    replayStep m v = m ∧
    handlerRatings l = handlerRatings l2 := by
  refine ⟨List.sorted_insertionSort voteLE l, List.perm_insertionSort voteLE l, rfl,
    replayStep_invalid m v hv, ?_⟩
  have hs1 : List.Sorted voteLE (fetchAllVotesSorted l) :=
    List.sorted_insertionSort voteLE l
  have hs2 : List.Sorted voteLE (fetchAllVotesSorted l2) :=
    List.sorted_insertionSort voteLE l2
  have hp : (fetchAllVotesSorted l).Perm (fetchAllVotesSorted l2) :=
    (List.perm_insertionSort voteLE l).trans
      (hperm.trans (List.perm_insertionSort voteLE l2).symm)
  have hnd1 : ((fetchAllVotesSorted l).map sortKey).Nodup :=
    (((List.perm_insertionSort voteLE l).map sortKey).nodup_iff).mpr hnd
  have heq : fetchAllVotesSorted l = fetchAllVotesSorted l2 :=
    sorted_nodupkeys_eq hp hs1 hs2 hnd1
  unfold handlerRatings
  rw [heq]

/-- Witness for C8: two events with distinct timestamps, in the two arrival
orders, plus one invalid (self-comparison) event. -/
theorem batch_replay_sorted_deterministic_witness :
    List.Sorted voteLE (fetchAllVotesSorted
      [⟨some 1, some 2, some 5⟩, ⟨some 2, some 3, some 4⟩]) ∧
    (fetchAllVotesSorted [⟨some 1, some 2, some 5⟩, ⟨some 2, some 3, some 4⟩]).Perm
      [⟨some 1, some 2, some 5⟩, ⟨some 2, some 3, some 4⟩] ∧
    handlerRatings [⟨some 1, some 2, some 5⟩, ⟨some 2, some 3, some 4⟩] =
      (fetchAllVotesSorted [⟨some 1, some 2, some 5⟩, ⟨some 2, some 3, some 4⟩]).foldl
        replayStep emptyRatingsMap ∧
    replayStep emptyRatingsMap ⟨some 7, some 7, some 1⟩ = emptyRatingsMap ∧
    handlerRatings [⟨some 1, some 2, some 5⟩, ⟨some 2, some 3, some 4⟩] =
      handlerRatings [⟨some 2, some 3, some 4⟩, ⟨some 1, some 2, some 5⟩] :=
  batch_replay_sorted_deterministic
    [⟨some 1, some 2, some 5⟩, ⟨some 2, some 3, some 4⟩]
    [⟨some 2, some 3, some 4⟩, ⟨some 1, some 2, some 5⟩]
    emptyRatingsMap ⟨some 7, some 7, some 1⟩
    (by decide) (by decide) (by decide)

end

end HeroRank
